import Mathlib

/-! Verification of the result cache of the BIM backend
(`src/backend/cache_service.py`).

The module under study is `CacheService`: an in-memory, two-namespace,
content-addressed, TTL-bounded cache.  Its state is two Python dicts
(`file_cache`, `analysis_cache`) mapping hash strings to entry dicts of the
shape `data/analysis, timestamp, cached_at`, plus a TTL in seconds.

Shallow embedding conventions:
* A Python dict is modelled as an association list `List (String × _)` in
  insertion order; Python dict assignment updates the entry in place when the
  key exists and appends otherwise, and `del` removes the (unique) key — the
  model's `eraseKey` filters every pair with that key, which agrees with `del`
  on duplicate-free key lists (the only states Python dicts can be in).
* Instants (`time.time()`) and the TTL are integers; each method that reads
  the wall clock takes the current instant `now : Int` as an explicit
  argument.  The write-only `cached_at` ISO string is kept as an opaque
  `String` argument.
* Methods that mutate `self` return the new `CacheService` state explicitly.
  `clear_cache` and `cleanup_expired` compute removal counts that the source
  emits on its log line (`print`); the embedding returns those counts as the
  observable output of the operation.
* `hashlib.md5(...).hexdigest()` is embedded as an executable MD5 over byte
  lists (`Nat` below 256), digest rendered as a lowercase hex string.
-/

set_option maxRecDepth 2000000

namespace BimCache

/-- One entry of `file_cache`: the dict
`data / timestamp / cached_at` built by `CacheService.cache_file_data`. -/
structure FileEntry (D : Type) where
  data : D
  timestamp : Int
  cached_at : String
deriving DecidableEq, Repr

/-- One entry of `analysis_cache`: the dict
`analysis / timestamp / cached_at` built by `CacheService.cache_analysis`. -/
structure AnalysisEntry where
  analysis : String
  timestamp : Int
  cached_at : String
deriving DecidableEq, Repr

/-- First-match lookup in an association list: Python's `m[k]` / `k in m`. -/
def lookupKey {β : Type} : List (String × β) → String → Option β
  | [], _ => Option.none
  | kv :: rest, k => if kv.1 = k then Option.some kv.2 else lookupKey rest k

/-- Python dict assignment `m[k] = v`: replace in place if the key is
present, append at the end otherwise. -/
def insertKey {β : Type} : List (String × β) → String → β → List (String × β)
  | [], k, v => [(k, v)]
  | kv :: rest, k, v =>
    if kv.1 = k then (k, v) :: rest else kv :: insertKey rest k v

/-- Python `del m[k]`: drop the pairs carrying key `k` (exactly one in any
state reachable through dict operations). -/
def eraseKey {β : Type} (m : List (String × β)) (k : String) : List (String × β) :=
  m.filter (fun kv => decide (kv.1 ≠ k))

/-- The state of `CacheService`: two namespaces plus the TTL in seconds. -/
structure CacheService (D : Type) where
  file_cache : List (String × FileEntry D)
  analysis_cache : List (String × AnalysisEntry)
  ttl_seconds : Int
deriving DecidableEq, Repr

namespace CacheService

/-- Constructor `CacheService.__init__`: empty namespaces, `ttl_seconds = ttl_hours * 3600`. -/
def init (D : Type) (ttl_hours : Int) : CacheService D :=
  { file_cache := [], analysis_cache := [], ttl_seconds := ttl_hours * 3600 }

/-- Method `CacheService.cache_file_data`: store the parsed data under the file
hash with the insertion instant. -/
def cache_file_data {D : Type} (c : CacheService D) (file_hash : String)
    (data : D) (now : Int) (nowIso : String) : CacheService D :=
  let entry : FileEntry D := { data := data, timestamp := now, cached_at := nowIso }
  { c with file_cache := insertKey c.file_cache file_hash entry }

/-- Method `CacheService.get_cached_file_data`: `Option.none` on a missing key;
on a present key, delete and report absent when `now - timestamp >
ttl_seconds`, otherwise return the stored data. -/
def get_cached_file_data {D : Type} (c : CacheService D) (file_hash : String)
    (now : Int) : Option D × CacheService D :=
  match lookupKey c.file_cache file_hash with
  | Option.none => (Option.none, c)
  | Option.some item =>
    if now - item.timestamp > c.ttl_seconds then
      (Option.none, { c with file_cache := eraseKey c.file_cache file_hash })
    else
      (Option.some item.data, c)

/-- Method `CacheService.cache_analysis`: store the analysis text under the data
signature with the insertion instant. -/
def cache_analysis {D : Type} (c : CacheService D) (data_signature : String)
    (analysis : String) (now : Int) (nowIso : String) : CacheService D :=
  let entry : AnalysisEntry := { analysis := analysis, timestamp := now, cached_at := nowIso }
  { c with analysis_cache := insertKey c.analysis_cache data_signature entry }

/-- Method `CacheService.get_cached_analysis`: same contract as
`get_cached_file_data`, on the analysis namespace. -/
def get_cached_analysis {D : Type} (c : CacheService D) (data_signature : String)
    (now : Int) : Option String × CacheService D :=
  match lookupKey c.analysis_cache data_signature with
  | Option.none => (Option.none, c)
  | Option.some item =>
    if now - item.timestamp > c.ttl_seconds then
      (Option.none, { c with analysis_cache := eraseKey c.analysis_cache data_signature })
    else
      (Option.some item.analysis, c)

/-- The statistics dict returned by `CacheService.get_cache_stats`. -/
structure Stats where
  file_cache_size : Nat
  analysis_cache_size : Nat
  ttl_hours : Int
deriving DecidableEq, Repr

/-- Method `CacheService.get_cache_stats`: sizes of the two resident maps and the
TTL in hours.  The source divides with Python `/`, which is exact here
because `ttl_seconds` is constructed as `ttl_hours * 3600`. -/
def get_cache_stats {D : Type} (c : CacheService D) : Stats :=
  { file_cache_size := c.file_cache.length
  , analysis_cache_size := c.analysis_cache.length
  , ttl_hours := c.ttl_seconds / 3600 }

/-- Method `CacheService.clear_cache`: record both sizes, empty both namespaces;
the two counts are the observable output (the source prints them). -/
def clear_cache {D : Type} (c : CacheService D) : CacheService D × Nat × Nat :=
  ({ c with file_cache := [], analysis_cache := [] },
   c.file_cache.length, c.analysis_cache.length)

/-- Whether an entry timestamp has outlived the TTL at instant `now`
(the comprehension filter of `CacheService.cleanup_expired`). -/
def staleAt (ttl now ts : Int) : Bool := decide (now - ts > ttl)

/-- First loop of `CacheService.cleanup_expired`: collect the expired keys
of `file_cache`, then delete each; the count is the length of that list. -/
def cleanup_expired_files {D : Type} (c : CacheService D) (now : Int) :
    CacheService D × Nat :=
  let expired_files :=
    (c.file_cache.filter (fun kv => staleAt c.ttl_seconds now kv.2.timestamp)).map Prod.fst
  ({ c with file_cache := expired_files.foldl (fun m k => eraseKey m k) c.file_cache },
   expired_files.length)

/-- Second loop of `CacheService.cleanup_expired`, on `analysis_cache`. -/
def cleanup_expired_analyses {D : Type} (c : CacheService D) (now : Int) :
    CacheService D × Nat :=
  let expired_analyses :=
    (c.analysis_cache.filter (fun kv => staleAt c.ttl_seconds now kv.2.timestamp)).map Prod.fst
  ({ c with analysis_cache := expired_analyses.foldl (fun m k => eraseKey m k) c.analysis_cache },
   expired_analyses.length)

/-- Method `CacheService.cleanup_expired`: both loops in source order, at the single
instant `current_time`; the two counts are the observable output. -/
def cleanup_expired {D : Type} (c : CacheService D) (now : Int) :
    CacheService D × Nat × Nat :=
  let rf := cleanup_expired_files c now
  let ra := cleanup_expired_analyses rf.1 now
  (ra.1, rf.2, ra.2)

end CacheService

/-! Section MD5 (`hashlib.md5(...).hexdigest()`)

Executable MD5 over byte lists, 32-bit words as `Nat` masked with
`&&& md5Mask`.  Round constants are the standard table
`floor(abs(sin(i+1)) * 2^32)`; shift amounts are the standard per-round
table.  The digest is rendered little-endian per state word, lowercase hex,
exactly as `hexdigest()` does. -/

/-- The 32-bit mask, `2^32 - 1`. -/
def md5Mask : Nat := 4294967295

/-- Bitwise complement on 32 bits. -/
def md5Not (x : Nat) : Nat := x ^^^ md5Mask

/-- Left rotation on 32 bits by `n` (with `0 ≤ n < 32`). -/
def md5Rotl (x n : Nat) : Nat := ((x <<< n) ||| (x >>> (32 - n))) &&& md5Mask

/-- MD5 round constants `floor(abs(sin(i+1)) * 2^32)` for `i = 0..63`. -/
def md5K : List Nat :=
  [3614090360, 3905402710, 606105819, 3250441966, 4118548399, 1200080426,
   2821735955, 4249261313, 1770035416, 2336552879, 4294925233, 2304563134,
   1804603682, 4254626195, 2792965006, 1236535329, 4129170786, 3225465664,
   643717713, 3921069994, 3593408605, 38016083, 3634488961, 3889429448,
   568446438, 3275163606, 4107603335, 1163531501, 2850285829, 4243563512,
   1735328473, 2368359562, 4294588738, 2272392833, 1839030562, 4259657740,
   2763975236, 1272893353, 4139469664, 3200236656, 681279174, 3936430074,
   3572445317, 76029189, 3654602809, 3873151461, 530742520, 3299628645,
   4096336452, 1126891415, 2878612391, 4237533241, 1700485571, 2399980690,
   4293915773, 2240044497, 1873313359, 4264355552, 2734768916, 1309151649,
   4149444226, 3174756917, 718787259, 3951481745]

/-- MD5 per-round left-rotation amounts. -/
def md5S : List Nat :=
  [7, 12, 17, 22, 7, 12, 17, 22, 7, 12, 17, 22, 7, 12, 17, 22,
   5, 9, 14, 20, 5, 9, 14, 20, 5, 9, 14, 20, 5, 9, 14, 20,
   4, 11, 16, 23, 4, 11, 16, 23, 4, 11, 16, 23, 4, 11, 16, 23,
   6, 10, 15, 21, 6, 10, 15, 21, 6, 10, 15, 21, 6, 10, 15, 21]

/-- One MD5 round: nonlinear function, message-word schedule, add,
rotate, register shuffle. -/
def md5Step (M : List Nat) (st : Nat × Nat × Nat × Nat) (i : Nat) :
    Nat × Nat × Nat × Nat :=
  let a := st.1
  let b := st.2.1
  let c := st.2.2.1
  let d := st.2.2.2
  let f :=
    if i < 16 then (b &&& c) ||| (md5Not b &&& d)
    else if i < 32 then (d &&& b) ||| (md5Not d &&& c)
    else if i < 48 then b ^^^ c ^^^ d
    else c ^^^ (b ||| md5Not d)
  let g :=
    if i < 16 then i
    else if i < 32 then (5 * i + 1) % 16
    else if i < 48 then (3 * i + 5) % 16
    else (7 * i) % 16
  let t := (a + f + md5K.getD i 0 + M.getD g 0) &&& md5Mask
  (d, (b + md5Rotl t (md5S.getD i 0)) &&& md5Mask, b, c)

/-- Process one 64-byte block (given as 16 little-endian words) and add the
result into the running state. -/
def md5ProcessBlock (st : Nat × Nat × Nat × Nat) (M : List Nat) :
    Nat × Nat × Nat × Nat :=
  let r := (List.range 64).foldl (md5Step M) st
  ((st.1 + r.1) &&& md5Mask, (st.2.1 + r.2.1) &&& md5Mask,
   (st.2.2.1 + r.2.2.1) &&& md5Mask, (st.2.2.2 + r.2.2.2) &&& md5Mask)

/-- Little-endian 32-bit words from a byte list. -/
def md5WordsLE : List Nat → List Nat
  | b0 :: b1 :: b2 :: b3 :: rest =>
    (b0 + (b1 <<< 8) + (b2 <<< 16) + (b3 <<< 24)) :: md5WordsLE rest
  | _ => []

/-- Structural worker for `md5Chunks`; the fuel bounds the chunk count. -/
def md5ChunksAux : Nat → List Nat → List (List Nat)
  | 0, _ => []
  | _, [] => []
  | fuel + 1, x :: xs => (x :: xs).take 64 :: md5ChunksAux fuel ((x :: xs).drop 64)

/-- Split a byte list into 64-byte chunks. -/
def md5Chunks (l : List Nat) : List (List Nat) :=
  md5ChunksAux l.length l

/-- The `n`-byte little-endian rendering of a number (for the 8-byte bit
length field). -/
def md5LenBytes : Nat → Nat → List Nat
  | 0, _ => []
  | n + 1, v => (v &&& 255) :: md5LenBytes n (v >>> 8)

/-- MD5 padding: `0x80`, zeros to 56 mod 64, then the bit length as a
64-bit little-endian integer. -/
def md5Pad (msg : List Nat) : List Nat :=
  let len := msg.length
  let zeros := (119 - len % 64) % 64
  msg ++ 128 :: List.replicate zeros 0 ++ md5LenBytes 8 ((8 * len) % (2 ^ 64))

/-- MD5 initial state. -/
def md5Init : Nat × Nat × Nat × Nat :=
  (1732584193, 4023233417, 2562383102, 271733878)

/-- The 16 digest bytes of a message. -/
def md5Digest (msg : List Nat) : List Nat :=
  let st := (md5Chunks (md5Pad msg)).foldl
    (fun st blk => md5ProcessBlock st (md5WordsLE blk)) md5Init
  md5LenBytes 4 st.1 ++ md5LenBytes 4 st.2.1 ++ md5LenBytes 4 st.2.2.1 ++
    md5LenBytes 4 st.2.2.2

/-- Lowercase hex digit. -/
def hexDigit (n : Nat) : Char :=
  if n < 10 then Char.ofNat (48 + n) else Char.ofNat (87 + n)

/-- Two lowercase hex digits of a byte. -/
def byteHex (b : Nat) : String :=
  String.mk [hexDigit (b / 16), hexDigit (b % 16)]

/-- The digest `hashlib.md5(msg).hexdigest()`. -/
def md5Hex (msg : List Nat) : String :=
  String.join ((md5Digest msg).map byteHex)

namespace CacheService

/-- Method `CacheService.get_file_hash`: the MD5 hex digest of the raw bytes. -/
def get_file_hash (content : List Nat) : String := md5Hex content

end CacheService

/-! Section structured records and `json.dumps(data, sort_keys=True, default=str)`

A building-data record is a Python value built from strings, ints, bools,
`None`, lists and string-keyed dicts; any other object is serialized through
`default=str`, i.e. replaced by its display string and then encoded as a
JSON string.  Dicts carry their insertion order.  `json.dumps` with
`sort_keys=True` and default separators renders dicts with keys sorted by
code point, `": "` between key and value and `", "` between items, and
escapes strings with `ensure_ascii` semantics. -/

mutual
inductive PyVal : Type where
  | str (s : String)
  | int (n : Int)
  | bool (b : Bool)
  | none
  | obj (display : String)
  | list (xs : PyList)
  | dict (kvs : PyDict)
inductive PyList : Type where
  | nil
  | cons (x : PyVal) (xs : PyList)
inductive PyDict : Type where
  | nil
  | cons (k : String) (v : PyVal) (kvs : PyDict)
end

/-- Four lowercase hex digits (for `\uXXXX` escapes). -/
def hex4 (n : Nat) : String :=
  String.mk [hexDigit (n / 4096 % 16), hexDigit (n / 256 % 16),
    hexDigit (n / 16 % 16), hexDigit (n % 16)]

/-- One character of a JSON string under `ensure_ascii=True`: backslash and
quote escaped, the five short escapes, every other character outside
`0x20..0x7e` as `\uXXXX` (a surrogate pair beyond the BMP). -/
def escapeChar (c : Char) : String :=
  if c = '"' then "\\\""
  else if c = '\\' then "\\\\"
  else if c = '\x08' then "\\b"
  else if c = '\t' then "\\t"
  else if c = '\n' then "\\n"
  else if c = '\x0c' then "\\f"
  else if c = '\r' then "\\r"
  else if c.toNat < 32 || c.toNat > 126 then
    if c.toNat < 65536 then "\\u" ++ hex4 c.toNat
    else "\\u" ++ hex4 (55296 + (c.toNat - 65536) / 1024) ++
      "\\u" ++ hex4 (56320 + (c.toNat - 65536) % 1024)
  else String.singleton c

/-- A JSON string literal. -/
def encodeJsonString (s : String) : String :=
  "\"" ++ String.join (s.data.map escapeChar) ++ "\""

/-- Rendering `key: value` of one already-serialized dict item. -/
def renderPair (p : String × String) : String :=
  encodeJsonString p.1 ++ ": " ++ p.2

/-- Code-point comparison of character lists: Python string `<=`. -/
def charListLeB : List Char → List Char → Bool
  | [], _ => true
  | _ :: _, [] => false
  | c :: cs, d :: ds =>
    if c.toNat < d.toNat then true
    else if d.toNat < c.toNat then false
    else charListLeB cs ds

/-- Key order used by `sort_keys=True`: code-point order of the raw keys. -/
def pairLe (a b : String × String) : Prop :=
  charListLeB a.1.data b.1.data = true

instance : DecidableRel pairLe := fun a b =>
  instDecidableEqBool (charListLeB a.1.data b.1.data) true

/-- The serialized dict items sorted by raw key (Python's `sorted`). -/
def sortPairs (l : List (String × String)) : List (String × String) :=
  List.insertionSort pairLe l

mutual
/-- Serialization `json.dumps(v, sort_keys=True, default=str)` of one value. -/
def PyVal.serialize : PyVal → String
  | .str s => encodeJsonString s
  | .int n => toString n
  | .bool b => if b then "true" else "false"
  | .none => "null"
  | .obj display => encodeJsonString display
  | .list xs => "[" ++ String.intercalate (", ") (PyList.serializeItems xs) ++ "]"
  | .dict kvs =>
    "\x7b" ++
      String.intercalate (", ") ((sortPairs (PyDict.serializePairs kvs)).map renderPair) ++
      "\x7d"
/-- The serialized items of a list, in order. -/
def PyList.serializeItems : PyList → List String
  | .nil => []
  | .cons x xs => PyVal.serialize x :: PyList.serializeItems xs
/-- The `(raw key, serialized value)` pairs of a dict, in insertion order. -/
def PyDict.serializePairs : PyDict → List (String × String)
  | .nil => []
  | .cons k v kvs => (k, PyVal.serialize v) :: PyDict.serializePairs kvs
end

/-- The raw keys of a dict, in insertion order. -/
def PyDict.keyList : PyDict → List String
  | .nil => []
  | .cons k _ kvs => k :: PyDict.keyList kvs

/-- The entries of a dict as an association list. -/
def PyDict.entries : PyDict → List (String × PyVal)
  | .nil => []
  | .cons k v kvs => (k, v) :: PyDict.entries kvs

/-- Boolean membership in a key list. -/
def keyMemB (k : String) : List String → Bool
  | [] => false
  | k2 :: ks => decide (k2 = k) || keyMemB k ks

/-- Boolean duplicate-freedom of a key list. -/
def nodupKeysB : List String → Bool
  | [] => true
  | k :: ks => !keyMemB k ks && nodupKeysB ks

mutual
/-- Every dict in the value has duplicate-free keys (true of every value a
Python dict tree can denote). -/
def PyVal.wellKeyed : PyVal → Bool
  | .str _ => true
  | .int _ => true
  | .bool _ => true
  | .none => true
  | .obj _ => true
  | .list xs => PyList.wellKeyed xs
  | .dict kvs => nodupKeysB (PyDict.keyList kvs) && PyDict.wellKeyed kvs
/-- Conjunction of `PyVal.wellKeyed` over the items. -/
def PyList.wellKeyed : PyList → Bool
  | .nil => true
  | .cons x xs => PyVal.wellKeyed x && PyList.wellKeyed xs
/-- Conjunction of `PyVal.wellKeyed` over the entry values. -/
def PyDict.wellKeyed : PyDict → Bool
  | .nil => true
  | .cons _ v kvs => PyVal.wellKeyed v && PyDict.wellKeyed kvs
end

/-- UTF-8 encoding of one code point. -/
def utf8EncodeCharNat (n : Nat) : List Nat :=
  if n < 128 then [n]
  else if n < 2048 then [192 + n / 64, 128 + n % 64]
  else if n < 65536 then [224 + n / 4096, 128 + (n / 64) % 64, 128 + n % 64]
  else [240 + n / 262144, 128 + (n / 4096) % 64, 128 + (n / 64) % 64, 128 + n % 64]

/-- Encoding `str.encode()`: the UTF-8 bytes of a string. -/
def utf8Bytes (s : String) : List Nat :=
  (s.data.map (fun c => utf8EncodeCharNat c.toNat)).flatten

namespace CacheService

/-- Method `CacheService.get_data_signature`: MD5 hex digest of the canonical
(`sort_keys=True, default=str`) JSON serialization of the record. -/
def get_data_signature (data : PyVal) : String :=
  md5Hex (utf8Bytes (PyVal.serialize data))

end CacheService

/-- The record of Scenario B, `a ↦ 1, b ↦ 2`, in insertion order `a, b`. -/
def recAB12 : PyVal :=
  PyVal.dict (PyDict.cons (r"a") (PyVal.int 1) (PyDict.cons (r"b") (PyVal.int 2) PyDict.nil))

/-- The same mapping with insertion order `b, a`. -/
def recBA21 : PyVal :=
  PyVal.dict (PyDict.cons (r"b") (PyVal.int 2) (PyDict.cons (r"a") (PyVal.int 1) PyDict.nil))

/-- The record `a ↦ 1, b ↦ 3` of Scenario B. -/
def recAB13 : PyVal :=
  PyVal.dict (PyDict.cons (r"a") (PyVal.int 1) (PyDict.cons (r"b") (PyVal.int 3) PyDict.nil))

mutual
/-- Equality of Python values as mappings: scalars equal, lists pointwise
equivalent, dicts carrying the same key set with equivalent values at each
key, in any insertion order (structurally: entrywise equivalence up to a
permutation of the entries). -/
inductive EquivVal : PyVal → PyVal → Prop where
  | str (s : String) : EquivVal (.str s) (.str s)
  | int (n : Int) : EquivVal (.int n) (.int n)
  | bool (b : Bool) : EquivVal (.bool b) (.bool b)
  | none : EquivVal .none .none
  | obj (s : String) : EquivVal (.obj s) (.obj s)
  | list {xs ys : PyList} : EquivItems xs ys → EquivVal (.list xs) (.list ys)
  | dict {kv1 mid kv2 : PyDict} : EquivEntries kv1 mid →
      (PyDict.entries mid).Perm (PyDict.entries kv2) →
      EquivVal (.dict kv1) (.dict kv2)
/-- Pointwise equivalence of lists (sequence order is significant). -/
inductive EquivItems : PyList → PyList → Prop where
  | nil : EquivItems .nil .nil
  | cons {x y : PyVal} {xs ys : PyList} : EquivVal x y → EquivItems xs ys →
      EquivItems (.cons x xs) (.cons y ys)
/-- Entrywise equivalence of dicts: same keys in the same order,
equivalent values. -/
inductive EquivEntries : PyDict → PyDict → Prop where
  | nil : EquivEntries .nil .nil
  | cons (k : String) {v w : PyVal} {kvs lws : PyDict} : EquivVal v w →
      EquivEntries kvs lws → EquivEntries (.cons k v kvs) (.cons k w lws)
end

/-- The strict key order: key order plus distinct keys. -/
def pairLtNe (a b : String × String) : Prop := pairLe a b ∧ a.1 ≠ b.1

mutual
/-- The `default=str` view of a value: every non-serializable object is
replaced by its display string, at any nesting level. -/
def PyVal.stringifyObjs : PyVal → PyVal
  | .str s => .str s
  | .int n => .int n
  | .bool b => .bool b
  | .none => .none
  | .obj display => .str display
  | .list xs => .list (PyList.stringifyObjs xs)
  | .dict kvs => .dict (PyDict.stringifyObjs kvs)
/-- Map of `PyVal.stringifyObjs` over the items. -/
def PyList.stringifyObjs : PyList → PyList
  | .nil => .nil
  | .cons x xs => .cons (PyVal.stringifyObjs x) (PyList.stringifyObjs xs)
/-- Map of `PyVal.stringifyObjs` over the entry values. -/
def PyDict.stringifyObjs : PyDict → PyDict
  | .nil => .nil
  | .cons k v kvs => .cons k (PyVal.stringifyObjs v) (PyDict.stringifyObjs kvs)
end

/-- First message of the published two-block MD5 collision
(Wang, Feng, Lai, Yu, 2004): 128 bytes. -/
def md5CollisionMsg1 : List Nat :=
  [209, 49, 221, 2, 197, 230, 238, 196, 105, 61, 154, 6, 152, 175, 249, 92,
   47, 202, 181, 135, 18, 70, 126, 171, 64, 4, 88, 62, 184, 251, 127, 137,
   85, 173, 52, 6, 9, 244, 179, 2, 131, 228, 136, 131, 37, 113, 65, 90,
   8, 81, 37, 232, 247, 205, 201, 159, 217, 29, 189, 242, 128, 55, 60, 91,
   216, 130, 62, 49, 86, 52, 143, 91, 174, 109, 172, 212, 54, 201, 25, 198,
   221, 83, 226, 180, 135, 218, 3, 253, 2, 57, 99, 6, 210, 72, 205, 160,
   233, 159, 51, 66, 15, 87, 126, 232, 206, 84, 182, 112, 128, 168, 13, 30,
   198, 152, 33, 188, 182, 168, 131, 147, 150, 249, 101, 43, 111, 247, 42, 112]

/-- Second message of the same collision: differs from the first in six
bytes (positions 19, 45, 59, 83, 109, 123), yet has the same MD5 digest. -/
def md5CollisionMsg2 : List Nat :=
  [209, 49, 221, 2, 197, 230, 238, 196, 105, 61, 154, 6, 152, 175, 249, 92,
   47, 202, 181, 7, 18, 70, 126, 171, 64, 4, 88, 62, 184, 251, 127, 137,
   85, 173, 52, 6, 9, 244, 179, 2, 131, 228, 136, 131, 37, 241, 65, 90,
   8, 81, 37, 232, 247, 205, 201, 159, 217, 29, 189, 114, 128, 55, 60, 91,
   216, 130, 62, 49, 86, 52, 143, 91, 174, 109, 172, 212, 54, 201, 25, 198,
   221, 83, 226, 52, 135, 218, 3, 253, 2, 57, 99, 6, 210, 72, 205, 160,
   233, 159, 51, 66, 15, 87, 126, 232, 206, 84, 182, 112, 128, 40, 13, 30,
   198, 152, 33, 188, 182, 168, 131, 147, 150, 249, 101, 171, 111, 247, 42, 112]


/-- The canonical serialization matches CPython's output byte for byte. -/
theorem serialize_recAB12 :
    PyVal.serialize recAB12 = "\x7b\"a\": 1, \"b\": 2\x7d" := by decide

/-- Reordered insertion gives the same canonical serialization. -/
theorem serialize_recBA21 :
    PyVal.serialize recBA21 = "\x7b\"a\": 1, \"b\": 2\x7d" := by decide

/-- The data signature of Scenario B's record matches
`hashlib.md5(json.dumps(...).encode()).hexdigest()` under CPython. -/
theorem signature_recAB12 :
    CacheService.get_data_signature recAB12 = "8aacdb17187e6acf2b175d4aa08d7213" := by decide

/-! Section association-list lemmas -/

theorem lookup_insert {β : Type} (m : List (String × β)) (k : String) (v : β) :
    lookupKey (insertKey m k v) k = Option.some v := by
  induction m with
  | nil => simp [insertKey, lookupKey]
  | cons kv rest ih =>
    by_cases h : kv.1 = k
    · simp [insertKey, h, lookupKey]
    · simp [insertKey, h, lookupKey, ih]

theorem lookup_insert_ttl {D : Type} (c : CacheService D) (k iso : String) (d : D)
    (t0 : Int) :
    (c.cache_file_data k d t0 iso).ttl_seconds = c.ttl_seconds := rfl

/-! Section C1: freshness window -/

/-- C1.  Freshness window: for a key inserted into either namespace at
instant `t0` against configured TTL `T = ttl_seconds`, a `get` at any
instant `t` with `t - t0 ≤ T` returns the stored value, and a `get` at any
instant `t` with `t - t0 > T` reports it absent. -/
theorem claim_C1_freshness_window {D : Type} (c : CacheService D)
    (k iso a : String) (d : D) (t0 t : Int) :
    ((t - t0 ≤ c.ttl_seconds →
        ((c.cache_file_data k d t0 iso).get_cached_file_data k t).1 = Option.some d) ∧
      (c.ttl_seconds < t - t0 →
        ((c.cache_file_data k d t0 iso).get_cached_file_data k t).1 = Option.none)) ∧
    ((t - t0 ≤ c.ttl_seconds →
        ((c.cache_analysis k a t0 iso).get_cached_analysis k t).1 = Option.some a) ∧
      (c.ttl_seconds < t - t0 →
        ((c.cache_analysis k a t0 iso).get_cached_analysis k t).1 = Option.none)) := by
  refine ⟨⟨fun h => ?_, fun h => ?_⟩, fun h => ?_, fun h => ?_⟩ <;>
    simp only [CacheService.cache_file_data, CacheService.get_cached_file_data,
      CacheService.cache_analysis, CacheService.get_cached_analysis, lookup_insert] <;>
    split <;> first
      | rfl
      | (rename_i hc; exfalso; omega)

/-- Witness for C1 at a concrete state: TTL 24 h, insertion at instant 0,
a hit at instant 86400 and a miss at instant 86401. -/
theorem claim_C1_freshness_window_witness :
    (((CacheService.init Nat 24).cache_file_data (r"k") 7 0 (r"t")).get_cached_file_data
        (r"k") 86400).1 = Option.some 7 ∧
    (((CacheService.init Nat 24).cache_file_data (r"k") 7 0 (r"t")).get_cached_file_data
        (r"k") 86401).1 = Option.none :=
  ⟨(claim_C1_freshness_window (CacheService.init Nat 24) (r"k") (r"t") (r"a") 7 0
      86400).1.1 (by decide),
   (claim_C1_freshness_window (CacheService.init Nat 24) (r"k") (r"t") (r"a") 7 0
      86401).1.2 (by decide)⟩

/-! Section C3: clear is complete, counted and idempotent -/

/-- C3.  `clear_cache` empties both namespaces unconditionally, its counts
are exactly the numbers of entries evicted from each namespace, and a
second immediate call removes zero entries and leaves the state of the
first call unchanged. -/
theorem claim_C3_clear_idempotent {D : Type} (c : CacheService D) :
    c.clear_cache.1.file_cache = [] ∧
    c.clear_cache.1.analysis_cache = [] ∧
    c.clear_cache.2.1 = c.file_cache.length ∧
    c.clear_cache.2.2 = c.analysis_cache.length ∧
    c.clear_cache.1.clear_cache = (c.clear_cache.1, 0, 0) :=
  ⟨rfl, rfl, rfl, rfl, rfl⟩

/-! Section C7: operations are total, absence is a normal result -/

/-- C7.  The cache operations are total functions of the state (each is a
plain function here); in particular a `get` on a key never inserted in
the queried namespace returns `Option.none` and leaves the state intact
rather than failing, and a put always succeeds and stores its entry. -/
theorem claim_C7_totality {D : Type} (c : CacheService D) (k iso a : String)
    (d : D) (now : Int)
    (hf : lookupKey c.file_cache k = Option.none)
    (ha : lookupKey c.analysis_cache k = Option.none) :
    c.get_cached_file_data k now = (Option.none, c) ∧
    c.get_cached_analysis k now = (Option.none, c) ∧
    lookupKey (c.cache_file_data k d now iso).file_cache k =
      Option.some { data := d, timestamp := now, cached_at := iso } ∧
    lookupKey (c.cache_analysis k a now iso).analysis_cache k =
      Option.some { analysis := a, timestamp := now, cached_at := iso } := by
  refine ⟨?_, ?_, lookup_insert .., lookup_insert ..⟩
  · simp only [CacheService.get_cached_file_data, hf]
  · simp only [CacheService.get_cached_analysis, ha]

/-- Witness for C7: a fresh cache holds neither key, and all four
conclusions hold there. -/
theorem claim_C7_totality_witness :
    (CacheService.init Nat 24).get_cached_file_data (r"k") 5 =
      (Option.none, CacheService.init Nat 24) ∧
    (CacheService.init Nat 24).get_cached_analysis (r"k") 5 =
      (Option.none, CacheService.init Nat 24) ∧
    lookupKey ((CacheService.init Nat 24).cache_file_data (r"k") 3 5 (r"t")).file_cache
      (r"k") = Option.some { data := 3, timestamp := 5, cached_at := r"t" } ∧
    lookupKey ((CacheService.init Nat 24).cache_analysis (r"k") (r"x") 5 (r"t")).analysis_cache
      (r"k") = Option.some { analysis := r"x", timestamp := 5, cached_at := r"t" } :=
  claim_C7_totality (CacheService.init Nat 24) (r"k") (r"t") (r"x") 3 5 (by decide) (by decide)

/-! Section C4: the sweep removes exactly the expired entries -/

theorem keyMemB_iff (k : String) (l : List String) :
    keyMemB k l = true ↔ k ∈ l := by
  induction l with
  | nil => simp [keyMemB]
  | cons k2 ks ih =>
    simp only [keyMemB, Bool.or_eq_true, decide_eq_true_eq, ih, List.mem_cons]
    exact or_congr ⟨Eq.symm, Eq.symm⟩ Iff.rfl

theorem foldl_erase {β : Type} (ks : List String) (m : List (String × β)) :
    ks.foldl (fun m k => eraseKey m k) m =
      m.filter (fun kv => !keyMemB kv.1 ks) := by
  induction ks generalizing m with
  | nil => simp [keyMemB]
  | cons k ks ih =>
    show ks.foldl (fun m k => eraseKey m k) (eraseKey m k) = _
    rw [ih, eraseKey, List.filter_filter]
    refine List.filter_congr fun kv _ => ?_
    by_cases h : k = kv.1 <;> simp [keyMemB, h, eq_comm]

/-- The sweep's first loop keeps exactly the fresh file entries and counts
exactly the stale ones, on any state with duplicate-free keys. -/
theorem cleanup_files_spec {D : Type} (c : CacheService D) (now : Int)
    (hn : (c.file_cache.map Prod.fst).Nodup) :
    (c.cleanup_expired_files now).1.file_cache =
      c.file_cache.filter
        (fun kv => !CacheService.staleAt c.ttl_seconds now kv.2.timestamp) ∧
    (c.cleanup_expired_files now).2 =
      (c.file_cache.filter
        (fun kv => CacheService.staleAt c.ttl_seconds now kv.2.timestamp)).length := by
  refine ⟨?_, by simp [CacheService.cleanup_expired_files]⟩
  show ((c.file_cache.filter _).map Prod.fst).foldl (fun m k => eraseKey m k)
      c.file_cache = _
  rw [foldl_erase]
  refine List.filter_congr fun kv hkv => ?_
  congr 1
  rw [Bool.eq_iff_iff, keyMemB_iff]
  constructor
  · rintro hmem
    rcases List.mem_map.1 hmem with ⟨kv2, hkv2, hfst⟩
    rcases List.mem_filter.1 hkv2 with ⟨hkv2m, hstale⟩
    have : kv2 = kv := List.inj_on_of_nodup_map hn hkv2m hkv hfst
    rwa [this] at hstale
  · intro hstale
    exact List.mem_map.2 ⟨kv, List.mem_filter.2 ⟨hkv, hstale⟩, rfl⟩

/-- The sweep's second loop, on the analysis namespace. -/
theorem cleanup_analyses_spec {D : Type} (c : CacheService D) (now : Int)
    (hn : (c.analysis_cache.map Prod.fst).Nodup) :
    (c.cleanup_expired_analyses now).1.analysis_cache =
      c.analysis_cache.filter
        (fun kv => !CacheService.staleAt c.ttl_seconds now kv.2.timestamp) ∧
    (c.cleanup_expired_analyses now).2 =
      (c.analysis_cache.filter
        (fun kv => CacheService.staleAt c.ttl_seconds now kv.2.timestamp)).length := by
  refine ⟨?_, by simp [CacheService.cleanup_expired_analyses]⟩
  show ((c.analysis_cache.filter _).map Prod.fst).foldl (fun m k => eraseKey m k)
      c.analysis_cache = _
  rw [foldl_erase]
  refine List.filter_congr fun kv hkv => ?_
  congr 1
  rw [Bool.eq_iff_iff, keyMemB_iff]
  constructor
  · rintro hmem
    rcases List.mem_map.1 hmem with ⟨kv2, hkv2, hfst⟩
    rcases List.mem_filter.1 hkv2 with ⟨hkv2m, hstale⟩
    have : kv2 = kv := List.inj_on_of_nodup_map hn hkv2m hkv hfst
    rwa [this] at hstale
  · intro hstale
    exact List.mem_map.2 ⟨kv, List.mem_filter.2 ⟨hkv, hstale⟩, rfl⟩

/-- C4.  On any state whose namespaces have duplicate-free keys (every
state a Python dict can hold), `cleanup_expired` at instant `now` keeps in
each namespace exactly the entries whose age `now - timestamp` does not
exceed `ttl_seconds`, removing every older entry without any `get`
involved, and its observable counts are exactly the numbers of stale
entries of the two namespaces. -/
theorem claim_C4_sweep_exact {D : Type} (c : CacheService D) (now : Int)
    (hf : (c.file_cache.map Prod.fst).Nodup)
    (ha : (c.analysis_cache.map Prod.fst).Nodup) :
    (c.cleanup_expired now).1.file_cache =
      c.file_cache.filter
        (fun kv => !CacheService.staleAt c.ttl_seconds now kv.2.timestamp) ∧
    (c.cleanup_expired now).1.analysis_cache =
      c.analysis_cache.filter
        (fun kv => !CacheService.staleAt c.ttl_seconds now kv.2.timestamp) ∧
    (c.cleanup_expired now).2.1 =
      (c.file_cache.filter
        (fun kv => CacheService.staleAt c.ttl_seconds now kv.2.timestamp)).length ∧
    (c.cleanup_expired now).2.2 =
      (c.analysis_cache.filter
        (fun kv => CacheService.staleAt c.ttl_seconds now kv.2.timestamp)).length := by
  have hfs := cleanup_files_spec c now hf
  have has := cleanup_analyses_spec (c.cleanup_expired_files now).1 now ha
  exact ⟨hfs.1, has.1, hfs.2, has.2⟩

/-- Witness for C4: a state with two file entries (one stale at instant
5000 under a 1-hour TTL) and one stale analysis entry; the sweep keeps the
fresh file entry and counts one removal in each namespace. -/
theorem claim_C4_sweep_exact_witness :
    (((((CacheService.init Nat 1).cache_file_data (r"f1") 7 0 (r"t")).cache_file_data
        (r"f2") 8 5000 (r"t")).cache_analysis (r"s1") (r"x") 0 (r"t")).cleanup_expired
        5000).2.1 = 1 ∧
    (((((CacheService.init Nat 1).cache_file_data (r"f1") 7 0 (r"t")).cache_file_data
        (r"f2") 8 5000 (r"t")).cache_analysis (r"s1") (r"x") 0 (r"t")).cleanup_expired
        5000).2.2 = 1 := by
  have h := claim_C4_sweep_exact
    ((((CacheService.init Nat 1).cache_file_data (r"f1") 7 0 (r"t")).cache_file_data
        (r"f2") 8 5000 (r"t")).cache_analysis (r"s1") (r"x") 0 (r"t"))
    5000 (by decide) (by decide)
  exact ⟨h.2.2.1.trans (by decide), h.2.2.2.trans (by decide)⟩

/-! Section C5: lazy versus active expiration -/

theorem lookup_mem {β : Type} {m : List (String × β)} {k : String} {v : β}
    (h : lookupKey m k = Option.some v) : (k, v) ∈ m := by
  induction m with
  | nil => simp [lookupKey] at h
  | cons kv rest ih =>
    by_cases hk : kv.1 = k
    · simp only [lookupKey, if_pos hk, Option.some.injEq] at h
      have h2 : kv = (k, v) := by
        calc kv = (kv.1, kv.2) := rfl
          _ = (k, v) := by rw [hk, h]
      rw [h2]
      exact List.mem_cons_self _ _
    · simp only [lookupKey, if_neg hk] at h
      exact List.mem_cons_of_mem _ (ih h)

theorem lookup_erase_self {β : Type} (m : List (String × β)) (k : String) :
    lookupKey (eraseKey m k) k = Option.none := by
  induction m with
  | nil => rfl
  | cons kv rest ih =>
    by_cases hk : kv.1 = k
    · simpa [eraseKey, List.filter, hk] using ih
    · simpa [eraseKey, List.filter, hk, lookupKey] using ih

/-- The claim of C5 as stated — sweeping and getting leave identical
namespace contents whenever the queried entry is stale — is false on a
state holding a second stale entry: under a 1-hour TTL with two file
entries inserted at instant 0, at instant 5000 the sweep empties the file
namespace while a `get` of the first key leaves one entry resident. -/
theorem claim_C5_counterexample :
    (((((CacheService.init Nat 1).cache_file_data (r"k1") 1 0 (r"t")).cache_file_data
          (r"k2") 2 0 (r"t")).cleanup_expired 5000).1.file_cache.length = 0 ∧
      ((((CacheService.init Nat 1).cache_file_data (r"k1") 1 0 (r"t")).cache_file_data
          (r"k2") 2 0 (r"t")).get_cached_file_data (r"k1") 5000).2.file_cache.length = 1) ∧
    ((((CacheService.init Nat 1).cache_file_data (r"k1") 1 0 (r"t")).cache_file_data
        (r"k2") 2 0 (r"t")).cleanup_expired 5000).1.file_cache ≠
      ((((CacheService.init Nat 1).cache_file_data (r"k1") 1 0 (r"t")).cache_file_data
          (r"k2") 2 0 (r"t")).get_cached_file_data (r"k1") 5000).2.file_cache := by
  exact ⟨⟨by decide, by decide⟩, by decide⟩

/-- C5 (amended).  When the stale entry under key `k` is the only stale
entry of the file namespace, an unsolicited `cleanup_expired` and a `get`
of `k` each remove it, and the file namespace contents after either path
are identical; in general both paths remove the queried stale entry, but
the sweep also removes every other stale entry. -/
theorem claim_C5_lazy_active_agree {D : Type} (c : CacheService D) (k : String)
    (e : FileEntry D) (now : Int)
    (hn : (c.file_cache.map Prod.fst).Nodup)
    (he : lookupKey c.file_cache k = Option.some e)
    (hstale : now - e.timestamp > c.ttl_seconds)
    (hothers : ∀ kv ∈ c.file_cache, kv.1 ≠ k →
      now - kv.2.timestamp ≤ c.ttl_seconds) :
    (c.cleanup_expired now).1.file_cache =
      (c.get_cached_file_data k now).2.file_cache ∧
    lookupKey (c.get_cached_file_data k now).2.file_cache k = Option.none ∧
    lookupKey (c.cleanup_expired now).1.file_cache k = Option.none := by
  have hget : (c.get_cached_file_data k now).2.file_cache = eraseKey c.file_cache k := by
    unfold CacheService.get_cached_file_data
    rw [he]
    simp only [if_pos hstale]
  have hsweep := (cleanup_files_spec c now hn).1
  have hmain : (c.cleanup_expired now).1.file_cache = eraseKey c.file_cache k := by
    show (c.cleanup_expired_files now).1.file_cache = _
    rw [hsweep, eraseKey]
    refine List.filter_congr fun kv hkv => ?_
    by_cases hk : kv.1 = k
    · have hkve : kv = (k, e) :=
        List.inj_on_of_nodup_map hn hkv (lookup_mem he) hk
      have : CacheService.staleAt c.ttl_seconds now kv.2.timestamp = true := by
        rw [hkve]
        exact decide_eq_true hstale
      simp [this, hk]
    · have : now - kv.2.timestamp ≤ c.ttl_seconds := hothers kv hkv hk
      have hfresh : CacheService.staleAt c.ttl_seconds now kv.2.timestamp = false := by
        simp [CacheService.staleAt]
        omega
      simp [hfresh, hk]
  refine ⟨hmain.trans hget.symm, ?_, ?_⟩
  · rw [hget]
    exact lookup_erase_self ..
  · rw [hmain]
    exact lookup_erase_self ..

/-- Witness for C5 (amended): one stale entry and one fresh entry; both
paths produce the same one-entry namespace with the stale key gone. -/
theorem claim_C5_lazy_active_agree_witness :
    ((((CacheService.init Nat 1).cache_file_data (r"old") 1 0 (r"t")).cache_file_data
        (r"new") 2 4000 (r"t")).cleanup_expired 5000).1.file_cache =
      ((((CacheService.init Nat 1).cache_file_data (r"old") 1 0 (r"t")).cache_file_data
          (r"new") 2 4000 (r"t")).get_cached_file_data (r"old") 5000).2.file_cache ∧
    lookupKey ((((CacheService.init Nat 1).cache_file_data (r"old") 1 0 (r"t")).cache_file_data
        (r"new") 2 4000 (r"t")).get_cached_file_data (r"old") 5000).2.file_cache (r"old") =
      Option.none ∧
    lookupKey ((((CacheService.init Nat 1).cache_file_data (r"old") 1 0 (r"t")).cache_file_data
        (r"new") 2 4000 (r"t")).cleanup_expired 5000).1.file_cache (r"old") =
      Option.none :=
  claim_C5_lazy_active_agree
    (((CacheService.init Nat 1).cache_file_data (r"old") 1 0 (r"t")).cache_file_data
      (r"new") 2 4000 (r"t"))
    (r"old") ({ data := 1, timestamp := 0, cached_at := r"t" }) 5000
    (by decide) (by decide) (by decide) (by decide)

/-! Section C6: namespace independence -/

/-- C6.  Every operation on one namespace leaves the other namespace's
mapping identical: a put, a get (hit, stale eviction or miss) and the
per-namespace sweep loop of `cleanup_expired` on the file namespace never
change `analysis_cache`, and symmetrically; the full `clear_cache` is the
contractual exception that empties both. -/
theorem claim_C6_namespace_independence {D : Type} (c : CacheService D)
    (k iso a : String) (d : D) (t : Int) :
    ((c.cache_file_data k d t iso).analysis_cache = c.analysis_cache ∧
      (c.get_cached_file_data k t).2.analysis_cache = c.analysis_cache ∧
      (c.cleanup_expired_files t).1.analysis_cache = c.analysis_cache) ∧
    ((c.cache_analysis k a t iso).file_cache = c.file_cache ∧
      (c.get_cached_analysis k t).2.file_cache = c.file_cache ∧
      (c.cleanup_expired_analyses t).1.file_cache = c.file_cache) ∧
    (c.clear_cache.1.file_cache = [] ∧ c.clear_cache.1.analysis_cache = []) := by
  refine ⟨⟨rfl, ?_, rfl⟩, ⟨rfl, ?_, rfl⟩, rfl, rfl⟩
  · unfold CacheService.get_cached_file_data
    split
    · rfl
    · split <;> rfl
  · unfold CacheService.get_cached_analysis
    split
    · rfl
    · split <;> rfl

/-! Section C8: stats is an exact physical snapshot -/

/-- C8.  `get_cache_stats` is a pure function of the state (it returns a
record and no modified state): its counts are exactly the numbers of
physically resident entries of the two namespaces — including entries
already stale, as the concrete stale one-entry state shows — and its
`ttl_hours` field reports the configured TTL. -/
theorem claim_C8_stats_snapshot {D : Type} (c : CacheService D) (th : Int) :
    c.get_cache_stats.file_cache_size = c.file_cache.length ∧
    c.get_cache_stats.analysis_cache_size = c.analysis_cache.length ∧
    c.get_cache_stats.ttl_hours = c.ttl_seconds / 3600 ∧
    (CacheService.init D th).get_cache_stats.ttl_hours = th ∧
    (∀ kv ∈ ((CacheService.init Nat 1).cache_file_data (r"k") 0 0 (r"t")).file_cache,
        CacheService.staleAt 3600 5000 kv.2.timestamp = true) ∧
    ((CacheService.init Nat 1).cache_file_data
        (r"k") 0 0 (r"t")).get_cache_stats.file_cache_size = 1 := by
  refine ⟨rfl, rfl, rfl, ?_, by decide, rfl⟩
  show th * 3600 / 3600 = th
  exact Int.mul_ediv_cancel th (by norm_num)

/-- Witness for C8: applying the snapshot theorem at a one-entry state
evaluates the file count to 1. -/
theorem claim_C8_stats_snapshot_witness :
    ((CacheService.init Nat 1).cache_file_data
        (r"k") 0 0 (r"t")).get_cache_stats.file_cache_size = 1 :=
  (claim_C8_stats_snapshot
    ((CacheService.init Nat 1).cache_file_data (r"k") 0 0 (r"t")) 1).1.trans (by decide)

/-! Section C2: the canonical serialization is key-order invariant -/

theorem char_toNat_inj {c d : Char} (h : c.toNat = d.toNat) : c = d :=
  Char.eq_of_val_eq (UInt32.eq_of_val_eq (Fin.ext h))

theorem charListLeB_total : ∀ (x y : List Char),
    charListLeB x y = true ∨ charListLeB y x = true
  | [], _ => Or.inl rfl
  | _ :: _, [] => Or.inr rfl
  | c :: cs, d :: ds => by
    by_cases h1 : c.toNat < d.toNat
    · left
      simp only [charListLeB]
      rw [if_pos h1]
    · by_cases h2 : d.toNat < c.toNat
      · right
        simp only [charListLeB]
        rw [if_pos h2]
      · rcases charListLeB_total cs ds with h | h
        · left
          simp only [charListLeB]
          rw [if_neg h1, if_neg h2]
          exact h
        · right
          simp only [charListLeB]
          rw [if_neg h2, if_neg h1]
          exact h

theorem charListLeB_trans : ∀ (x y z : List Char), charListLeB x y = true →
    charListLeB y z = true → charListLeB x z = true
  | [], _, _, _, _ => rfl
  | c :: cs, [], _, hxy, _ => by simp [charListLeB] at hxy
  | _ :: _, _ :: _, [], _, hyz => by simp [charListLeB] at hyz
  | c :: cs, d :: ds, e :: es, hxy, hyz => by
    simp only [charListLeB] at hxy hyz ⊢
    by_cases h1 : c.toNat < d.toNat
    · by_cases h2 : d.toNat < e.toNat
      · rw [if_pos (show c.toNat < e.toNat by omega)]
      · by_cases h3 : e.toNat < d.toNat
        · rw [if_neg h2, if_pos h3] at hyz
          exact absurd hyz (by simp)
        · rw [if_pos (show c.toNat < e.toNat by omega)]
    · by_cases h4 : d.toNat < c.toNat
      · rw [if_neg h1, if_pos h4] at hxy
        exact absurd hxy (by simp)
      · rw [if_neg h1, if_neg h4] at hxy
        by_cases h2 : d.toNat < e.toNat
        · rw [if_pos (show c.toNat < e.toNat by omega)]
        · by_cases h3 : e.toNat < d.toNat
          · rw [if_neg h2, if_pos h3] at hyz
            exact absurd hyz (by simp)
          · rw [if_neg h2, if_neg h3] at hyz
            rw [if_neg (show ¬c.toNat < e.toNat by omega),
              if_neg (show ¬e.toNat < c.toNat by omega)]
            exact charListLeB_trans cs ds es hxy hyz

theorem charListLeB_antisymm : ∀ (x y : List Char), charListLeB x y = true →
    charListLeB y x = true → x = y
  | [], [], _, _ => rfl
  | [], _ :: _, _, hyx => by simp [charListLeB] at hyx
  | _ :: _, [], hxy, _ => by simp [charListLeB] at hxy
  | c :: cs, d :: ds, hxy, hyx => by
    simp only [charListLeB] at hxy hyx
    by_cases h1 : c.toNat < d.toNat
    · rw [if_neg (show ¬d.toNat < c.toNat by omega), if_pos h1] at hyx
      exact absurd hyx (by simp)
    · by_cases h2 : d.toNat < c.toNat
      · rw [if_neg h1, if_pos h2] at hxy
        exact absurd hxy (by simp)
      · rw [if_neg h1, if_neg h2] at hxy
        rw [if_neg h2, if_neg h1] at hyx
        have hcd : c = d := char_toNat_inj (by omega)
        rw [hcd, charListLeB_antisymm cs ds hxy hyx]


theorem sortPairs_perm (l : List (String × String)) : (sortPairs l).Perm l :=
  List.perm_insertionSort pairLe l

theorem sortPairs_sorted (l : List (String × String)) :
    List.Sorted pairLe (sortPairs l) := by
  haveI : IsTotal (String × String) pairLe :=
    ⟨fun a b => charListLeB_total a.1.data b.1.data⟩
  haveI : IsTrans (String × String) pairLe :=
    ⟨fun a b c => charListLeB_trans a.1.data b.1.data c.1.data⟩
  exact List.sorted_insertionSort pairLe l

theorem sortPairs_sorted_strict (l : List (String × String))
    (hn : (l.map Prod.fst).Nodup) : List.Sorted pairLtNe (sortPairs l) := by
  have hn2 : ((sortPairs l).map Prod.fst).Nodup :=
    ((sortPairs_perm l).map Prod.fst).nodup_iff.mpr hn
  have hne : (sortPairs l).Pairwise (fun a b => a.1 ≠ b.1) :=
    List.pairwise_map.mp hn2
  exact (sortPairs_sorted l).and hne

/-- Two permutation-equal pair lists with duplicate-free keys sort to the
same list: the canonical dict rendering ignores insertion order. -/
theorem sortPairs_eq_of_perm {l1 l2 : List (String × String)} (h : l1.Perm l2)
    (hn : (l1.map Prod.fst).Nodup) : sortPairs l1 = sortPairs l2 := by
  have hn2 : (l2.map Prod.fst).Nodup := (h.map Prod.fst).nodup_iff.mp hn
  have hperm : (sortPairs l1).Perm (sortPairs l2) :=
    (sortPairs_perm l1).trans (h.trans (sortPairs_perm l2).symm)
  haveI : IsAntisymm (String × String) pairLtNe :=
    ⟨fun a b h1 h2 => by
      have : a.1 = b.1 :=
        congrArg String.mk (charListLeB_antisymm a.1.data b.1.data h1.1 h2.1)
      exact absurd this h1.2⟩
  exact List.eq_of_perm_of_sorted hperm
    (sortPairs_sorted_strict l1 hn) (sortPairs_sorted_strict l2 hn2)


theorem nodupKeysB_iff (l : List String) : nodupKeysB l = true ↔ l.Nodup := by
  induction l with
  | nil => simp [nodupKeysB]
  | cons k ks ih =>
    simp only [nodupKeysB, Bool.and_eq_true, Bool.not_eq_true', List.nodup_cons, ih]
    constructor
    · rintro ⟨h1, h2⟩
      refine ⟨fun hmem => ?_, h2⟩
      rw [(keyMemB_iff k ks).mpr hmem] at h1
      cases h1
    · rintro ⟨h1, h2⟩
      refine ⟨?_, h2⟩
      cases hb : keyMemB k ks
      · rfl
      · exact absurd ((keyMemB_iff k ks).mp hb) h1

theorem serializePairs_eq_map : ∀ (kvs : PyDict),
    PyDict.serializePairs kvs =
      (PyDict.entries kvs).map (fun kv => (kv.1, PyVal.serialize kv.2))
  | .nil => rfl
  | .cons k v rest => by
    show (k, PyVal.serialize v) :: PyDict.serializePairs rest = _
    rw [serializePairs_eq_map rest]
    rfl

theorem serializePairs_keys : ∀ (kvs : PyDict),
    (PyDict.serializePairs kvs).map Prod.fst = PyDict.keyList kvs
  | .nil => rfl
  | .cons k v rest => by
    show k :: (PyDict.serializePairs rest).map Prod.fst = _
    rw [serializePairs_keys rest]
    rfl

theorem equivEntries_keyList : ∀ {kvs lws : PyDict}, EquivEntries kvs lws →
    PyDict.keyList kvs = PyDict.keyList lws
  | _, _, .nil => rfl
  | _, _, .cons k _ hs => by
    show k :: _ = k :: _
    rw [equivEntries_keyList hs]

mutual
/-- Records that are equal as mappings (the left one with duplicate-free
keys, as every Python dict is) serialize to the same canonical string. -/
theorem equiv_serialize : ∀ {r1 r2 : PyVal}, EquivVal r1 r2 →
    PyVal.wellKeyed r1 = true → PyVal.serialize r1 = PyVal.serialize r2
  | _, _, .str s, _ => rfl
  | _, _, .int n, _ => rfl
  | _, _, .bool b, _ => rfl
  | _, _, .none, _ => rfl
  | _, _, .obj s, _ => rfl
  | _, _, .list h, hwk => by
    have hs := equiv_serializeItems h hwk
    show "[" ++ String.intercalate (", ") _ ++ "]" = "[" ++ String.intercalate (", ") _ ++ "]"
    rw [hs]
  | _, _, .dict hent hperm, hwk => by
    rename_i kv1 mid kv2
    simp only [PyVal.wellKeyed, Bool.and_eq_true] at hwk
    have h1 : PyDict.serializePairs kv1 = PyDict.serializePairs mid :=
      equiv_serializePairs hent hwk.2
    have h2 : (PyDict.serializePairs mid).Perm (PyDict.serializePairs kv2) := by
      rw [serializePairs_eq_map mid, serializePairs_eq_map kv2]
      exact hperm.map _
    have hn : ((PyDict.serializePairs kv1).map Prod.fst).Nodup := by
      rw [serializePairs_keys]
      exact (nodupKeysB_iff _).mp hwk.1
    have h3 : sortPairs (PyDict.serializePairs kv1) =
        sortPairs (PyDict.serializePairs kv2) :=
      sortPairs_eq_of_perm (h1 ▸ h2) hn
    show "\x7b" ++ String.intercalate (", ") _ ++ "\x7d" =
      "\x7b" ++ String.intercalate (", ") _ ++ "\x7d"
    rw [h3]
/-- Item lists of equivalent lists serialize pointwise equally. -/
theorem equiv_serializeItems : ∀ {xs ys : PyList}, EquivItems xs ys →
    PyList.wellKeyed xs = true →
    PyList.serializeItems xs = PyList.serializeItems ys
  | _, _, .nil, _ => rfl
  | _, _, .cons h hs, hwk => by
    simp only [PyList.wellKeyed, Bool.and_eq_true] at hwk
    show PyVal.serialize _ :: PyList.serializeItems _ =
      PyVal.serialize _ :: PyList.serializeItems _
    rw [equiv_serialize h hwk.1, equiv_serializeItems hs hwk.2]
/-- Entry lists of entrywise-equivalent dicts serialize pairwise equally. -/
theorem equiv_serializePairs : ∀ {kvs lws : PyDict}, EquivEntries kvs lws →
    PyDict.wellKeyed kvs = true →
    PyDict.serializePairs kvs = PyDict.serializePairs lws
  | _, _, .nil, _ => rfl
  | _, _, .cons k h hs, hwk => by
    simp only [PyDict.wellKeyed, Bool.and_eq_true] at hwk
    show (k, PyVal.serialize _) :: PyDict.serializePairs _ =
      (k, PyVal.serialize _) :: PyDict.serializePairs _
    rw [equiv_serialize h hwk.1, equiv_serializePairs hs hwk.2]
end

/-- RFC 1321 test vector: the empty message. -/
theorem md5Hex_empty : md5Hex [] = "d41d8cd98f00b204e9800998ecf8427e" := by decide

/-- RFC 1321 test vector: the three bytes of `abc`. -/
theorem md5Hex_abc : md5Hex [97, 98, 99] = "900150983cd24fb0d6963f7d28e17f72" := by decide


/-- C2.  Key-order invariance of the record fingerprint: records that are
equal as mappings — same keys and values at every nesting level, in any
insertion order, with duplicate-free keys as in every Python dict — have
equal `get_data_signature` fingerprints; and Scenario B's record differing
in one value, `b ↦ 3` against `b ↦ 2`, has a different fingerprint. -/
theorem claim_C2_key_order_invariance :
    (∀ r1 r2 : PyVal, PyVal.wellKeyed r1 = true → EquivVal r1 r2 →
      CacheService.get_data_signature r1 = CacheService.get_data_signature r2) ∧
    CacheService.get_data_signature recAB12 ≠
      CacheService.get_data_signature recAB13 := by
  constructor
  · intro r1 r2 hw he
    show md5Hex (utf8Bytes (PyVal.serialize r1)) =
      md5Hex (utf8Bytes (PyVal.serialize r2))
    rw [equiv_serialize he hw]
  · decide

/-- Witness for C2: Scenario B's two insertion orders of the mapping
`a ↦ 1, b ↦ 2` produce identical fingerprints. -/
theorem claim_C2_key_order_invariance_witness :
    CacheService.get_data_signature recBA21 =
      CacheService.get_data_signature recAB12 :=
  claim_C2_key_order_invariance.1 recBA21 recAB12 (by decide)
    (EquivVal.dict
      (EquivEntries.cons (r"b") (EquivVal.int 2)
        (EquivEntries.cons (r"a") (EquivVal.int 1) EquivEntries.nil))
      (List.Perm.swap ((r"a"), PyVal.int 1) ((r"b"), PyVal.int 2) []))

/-! Section C10: objects collide with their display strings -/


mutual
/-- Serialization factors through the `default=str` view: replacing
objects by their display strings never changes the canonical JSON. -/
theorem PyVal.serialize_stringifyObjs : ∀ (v : PyVal),
    PyVal.serialize (PyVal.stringifyObjs v) = PyVal.serialize v
  | .str s => rfl
  | .int n => rfl
  | .bool b => rfl
  | .none => rfl
  | .obj display => rfl
  | .list xs => by
    show "[" ++ String.intercalate (", ")
        (PyList.serializeItems (PyList.stringifyObjs xs)) ++ "]" = _
    rw [PyList.serializeItems_stringifyObjs xs]
    rfl
  | .dict kvs => by
    show "\x7b" ++ String.intercalate (", ")
        ((sortPairs (PyDict.serializePairs (PyDict.stringifyObjs kvs))).map
          renderPair) ++ "\x7d" = _
    rw [PyDict.serializePairs_stringifyObjs kvs]
    rfl
/-- Item serialization under the `default=str` view. -/
theorem PyList.serializeItems_stringifyObjs : ∀ (xs : PyList),
    PyList.serializeItems (PyList.stringifyObjs xs) = PyList.serializeItems xs
  | .nil => rfl
  | .cons x xs => by
    show PyVal.serialize (PyVal.stringifyObjs x) :: _ = _
    rw [PyVal.serialize_stringifyObjs x, PyList.serializeItems_stringifyObjs xs]
    rfl
/-- Entry serialization under the `default=str` view. -/
theorem PyDict.serializePairs_stringifyObjs : ∀ (kvs : PyDict),
    PyDict.serializePairs (PyDict.stringifyObjs kvs) = PyDict.serializePairs kvs
  | .nil => rfl
  | .cons k v kvs => by
    show (k, PyVal.serialize (PyVal.stringifyObjs v)) :: _ = _
    rw [PyVal.serialize_stringifyObjs v, PyDict.serializePairs_stringifyObjs kvs]
    rfl
end

/-- C10.  The fingerprint cannot distinguish a non-serializable object
from the plain string it stringifies to, at any nesting level: any two
records with the same `default=str` view — in particular a record and the
record with an object value replaced by its display string — have equal
`get_data_signature` fingerprints. -/
theorem claim_C10_obj_string_collision (r1 r2 : PyVal)
    (h : PyVal.stringifyObjs r1 = PyVal.stringifyObjs r2) :
    CacheService.get_data_signature r1 = CacheService.get_data_signature r2 := by
  show md5Hex (utf8Bytes (PyVal.serialize r1)) =
    md5Hex (utf8Bytes (PyVal.serialize r2))
  rw [← PyVal.serialize_stringifyObjs r1, ← PyVal.serialize_stringifyObjs r2, h]

/-- Witness for C10: a record holding a non-serializable object displaying
as `2024-01-01` fingerprints identically to the record holding that plain
string. -/
theorem claim_C10_obj_string_collision_witness :
    CacheService.get_data_signature
        (PyVal.dict (PyDict.cons (r"ts") (PyVal.obj (r"2024-01-01")) PyDict.nil)) =
      CacheService.get_data_signature
        (PyVal.dict (PyDict.cons (r"ts") (PyVal.str (r"2024-01-01")) PyDict.nil)) :=
  claim_C10_obj_string_collision _ _ rfl

/-! Section C9: the byte fingerprint is MD5, which is not collision-resistant -/

/-- The claim of C9 as stated is false: `get_file_hash` is MD5, and the two
distinct 128-byte messages of the published Wang–Feng–Lai–Yu collision
receive the same fingerprint, so a fingerprint does not uniquely determine
its input content. -/
theorem claim_C9_counterexample :
    md5CollisionMsg1 ≠ md5CollisionMsg2 ∧
      CacheService.get_file_hash md5CollisionMsg1 =
        CacheService.get_file_hash md5CollisionMsg2 :=
  ⟨by decide, by decide⟩

set_option maxHeartbeats 4000000 in
/-- C9 (amended).  `get_file_hash` is the deterministic 128-bit MD5 digest
of the bytes: equal byte sequences always fingerprint equally, distinct
inputs generally differ (spot-check: 64 distinct single-byte inputs have
pairwise distinct digests), but the digest is not collision-resistant —
explicit distinct byte sequences share a fingerprint — so a fingerprint
does not uniquely determine its input content. -/
theorem claim_C9_md5_fingerprint :
    (∀ b : List Nat, CacheService.get_file_hash b = CacheService.get_file_hash b) ∧
    ((List.range 64).map (fun b => CacheService.get_file_hash [b])).Nodup ∧
    (∃ b1 b2 : List Nat, b1 ≠ b2 ∧
      CacheService.get_file_hash b1 = CacheService.get_file_hash b2) :=
  ⟨fun _ => rfl, by decide, md5CollisionMsg1, md5CollisionMsg2, by decide, by decide⟩

end BimCache
